import Mathlib

/-!
Verification of the `aws-test-helpers` repository: a shallow embedding of the
Invocation Engine (`LambdaHelper.invokeLambda`), the Queue Client
(`SqsHelper`), and the Poll Orchestrator (`SqsLambdaHelper.runSqsLambda`),
together with proofs of the specified properties.
-/

namespace AwsTestHelpers

/-! ## JavaScript values

A small model of the JavaScript values that flow through the helpers:
primitives plus opaque reference values (`obj id`, where `===` is identity).
-/

inductive JSValue where
  | undef
  | null
  | bool (b : Bool)
  | num (n : Int)
  | str (s : String)
  | obj (id : Nat)
deriving DecidableEq, Repr

/-- JavaScript truthiness (`if (x)`); objects are always truthy. -/
def JSValue.truthy : JSValue → Bool
  | .undef => false
  | .null => false
  | .bool b => b
  | .num n => n != 0
  | .str s => s != ""
  | .obj _ => true

/-! ## Invocation Engine (`LambdaHelper.invokeLambda`)

`invokeLambda` creates a promise with idempotent `resolve`/`reject`
(guarded by the `promiseSettled` flag; both also clear `timeoutId`), a
completion `callback` that rejects on a truthy error and resolves
otherwise, a timer that rejects with the sentinel string
`"lambda-helper-timeout"`, and a context whose `succeed`/`fail`/`done`
methods delegate to `callback`.  The awaited promise is classified into
the output:  a resolution becomes `{result, success: true}`, a rejection
becomes `{error, success: false, timeout}` with the sentinel mapped to
`error = undefined`, `timeout = true`.
-/

/-- The sentinel value `"lambda-helper-timeout"` the timer rejects with. -/
def lambdaHelperTimeout : JSValue := .str "lambda-helper-timeout"

/-- A write to the settlement cell: `resolve(result)` or `reject(error)`. -/
inductive Signal where
  | resolve (result : JSValue)
  | reject (error : JSValue)
deriving DecidableEq, Repr

/-- The mutable state of one `invokeLambda` call: the `promiseSettled` flag
together with the settling signal, and whether `timeoutId` is still set. -/
structure SettleState where
  settled : Option Signal
  timeoutActive : Bool
deriving DecidableEq, Repr

/-- State at the start of `invokeLambda`: unsettled, timer armed. -/
def initialSettleState : SettleState :=
  { settled := none, timeoutActive := true }

/-- One call to the idempotent `resolve`/`reject`: always clears the timer,
settles only if `promiseSettled` is still false. -/
def applySignal (st : SettleState) (s : Signal) : SettleState :=
  { settled := if st.settled.isNone then some s else st.settled
    timeoutActive := false }

/-- Completion events a handler execution can raise, across the three
conventions, plus the timer firing and a synchronous throw. -/
inductive CompletionEvent where
  /-- The returned awaitable resolved with `result`. -/
  | promiseResolve (result : JSValue)
  /-- The returned awaitable rejected with `error`. -/
  | promiseReject (error : JSValue)
  /-- The handler returned a plain non-awaitable value. -/
  | returnNonPromise (value : JSValue)
  /-- The handler called the completion callback with `(error, result)`. -/
  | callbackCall (error result : JSValue)
  /-- The handler called `context.succeed(result)`. -/
  | succeed (result : JSValue)
  /-- The handler called `context.fail(error)`. -/
  | fail (error : JSValue)
  /-- The handler called `context.done(error, result)`. -/
  | done (error result : JSValue)
  /-- The handler threw synchronously before returning. -/
  | syncThrow (error : JSValue)
  /-- The `setTimeout` timer fired after `timeout * 1000` ms. -/
  | timerFire
deriving DecidableEq, Repr

/-- The completion `callback`: `if (error) reject(error) else resolve(result)`. -/
def callbackSignal (error result : JSValue) : Signal :=
  if error.truthy then .reject error else .resolve result

/-- The settlement write each event performs.  A returned awaitable is wired
with `result.then(resolve, reject)`; `callback` dispatches on truthiness of
the error; `succeed`/`fail`/`done` delegate to `callback`; a synchronous
throw is caught and rejected; the timer rejects the sentinel.  A plain
non-awaitable return value performs no write (`result instanceof Promise`
is false, so it is ignored). -/
def CompletionEvent.signal : CompletionEvent → Option Signal
  | .promiseResolve r => some (.resolve r)
  | .promiseReject e => some (.reject e)
  | .returnNonPromise _ => none
  | .callbackCall e r => some (callbackSignal e r)
  | .succeed r => some (callbackSignal .null r)
  | .fail e => some (callbackSignal e .undef)
  | .done e r => some (callbackSignal e r)
  | .syncThrow e => some (.reject e)
  | .timerFire => some (.reject lambdaHelperTimeout)

/-- Process one completion event against the settlement state. -/
def applyEvent (st : SettleState) (ev : CompletionEvent) : SettleState :=
  match ev.signal with
  | none => st
  | some s => applySignal st s

/-- Process a sequence of completion events in observation order. -/
def applyEvents (st : SettleState) (evs : List CompletionEvent) : SettleState :=
  evs.foldl applyEvent st

/-- The value `invokeLambda` returns, mirroring `InvokeLambdaOutput`:
`{result, success: true}` or `{error, success: false, timeout}`. -/
inductive InvokeLambdaOutput where
  | success (result : JSValue)
  | failure (error : JSValue) (timeout : Bool)
deriving DecidableEq, Repr

/-- The final `try { await promise } catch` classification: a resolution is
a success; a rejection is a failure whose `error` is `undefined` exactly
when it is the sentinel, with `timeout` set accordingly. -/
def classifySignal : Signal → InvokeLambdaOutput
  | .resolve r => .success r
  | .reject e =>
      .failure (if e = lambdaHelperTimeout then .undef else e)
        (e = lambdaHelperTimeout)

/-- The `InvokeLambdaOutput` determined by a settlement state, if settled. -/
def invokeResult (st : SettleState) : Option InvokeLambdaOutput :=
  st.settled.map classifySignal

/-- The first settlement signal raised by a sequence of events. -/
def firstSignal (evs : List CompletionEvent) : Option Signal :=
  (evs.filterMap CompletionEvent.signal).head?

/-- The result of an invocation whose handler raises exactly one event. -/
def invokeWith (ev : CompletionEvent) : Option InvokeLambdaOutput :=
  invokeResult (applyEvents initialSettleState [ev])

/-! ### Settlement lemmas -/

theorem applySignal_settled_some (st : SettleState) (s s0 : Signal)
    (h : st.settled = some s0) : (applySignal st s).settled = some s0 := by
  simp [applySignal, h]

theorem applyEvent_settled_some (st : SettleState) (ev : CompletionEvent)
    (s0 : Signal) (h : st.settled = some s0) :
    (applyEvent st ev).settled = some s0 := by
  unfold applyEvent
  cases ev.signal with
  | none => exact h
  | some s => exact applySignal_settled_some st s s0 h

theorem applyEvents_settled_some (evs : List CompletionEvent)
    (st : SettleState) (s0 : Signal) (h : st.settled = some s0) :
    (applyEvents st evs).settled = some s0 := by
  induction evs generalizing st with
  | nil => exact h
  | cons ev rest ih =>
      exact ih (applyEvent st ev) (applyEvent_settled_some st ev s0 h)

theorem applyEvents_first_signal (evs : List CompletionEvent) :
    (applyEvents initialSettleState evs).settled = firstSignal evs := by
  induction evs with
  | nil => rfl
  | cons ev rest ih =>
      cases h : ev.signal with
      | none =>
          have hstep : applyEvent initialSettleState ev = initialSettleState := by
            simp [applyEvent, h]
          simp [applyEvents, List.foldl_cons, hstep, firstSignal,
            List.filterMap_cons, h] at *
          exact ih
      | some s =>
          have hstep : (applyEvent initialSettleState ev).settled = some s := by
            simp [applyEvent, h, applySignal, initialSettleState]
          have habs := applyEvents_settled_some rest
            (applyEvent initialSettleState ev) s hstep
          simp [applyEvents, List.foldl_cons] at habs ⊢
          rw [habs]
          simp [firstSignal, List.filterMap_cons, h]

theorem invokeResult_eq_first (evs : List CompletionEvent) :
    invokeResult (applyEvents initialSettleState evs) =
      (firstSignal evs).map classifySignal := by
  unfold invokeResult
  rw [applyEvents_first_signal]

theorem firstSignal_append_of_some (evs later : List CompletionEvent)
    (s : Signal) (h : firstSignal evs = some s) :
    firstSignal (evs ++ later) = some s := by
  unfold firstSignal at h ⊢
  rw [List.filterMap_append]
  cases hfm : evs.filterMap CompletionEvent.signal with
  | nil => rw [hfm] at h; simp at h
  | cons a t => rw [hfm] at h; simp at h; simp [h]

/-! ### Claim theorems for the Invocation Engine -/

/-- C1: settlement of `invokeLambda` is single-write: for every sequence of
completion events whose first settlement signal is `s`, the final
`InvocationResult` is the classification of `s`, and any later events — from
the promise, the callback, the context methods, or the timer — leave the
result unchanged. -/
theorem invokeLambda_single_write (evs later : List CompletionEvent)
    (s : Signal) (h : firstSignal evs = some s) :
    invokeResult (applyEvents initialSettleState (evs ++ later)) =
        some (classifySignal s) ∧
      invokeResult (applyEvents initialSettleState (evs ++ later)) =
        invokeResult (applyEvents initialSettleState evs) := by
  have hap := firstSignal_append_of_some evs later s h
  rw [invokeResult_eq_first, invokeResult_eq_first, hap, h]
  exact ⟨rfl, rfl⟩

/-- Witness for C1: a handler that resolves `1` through the callback and then
also fails through `context.fail` still yields `Success 1`. -/
theorem invokeLambda_single_write_witness :
    invokeResult (applyEvents initialSettleState
        ([CompletionEvent.callbackCall .null (.num 1)] ++
          [CompletionEvent.fail (.str "late"), CompletionEvent.timerFire])) =
        some (classifySignal (.resolve (.num 1))) ∧
      invokeResult (applyEvents initialSettleState
        ([CompletionEvent.callbackCall .null (.num 1)] ++
          [CompletionEvent.fail (.str "late"), CompletionEvent.timerFire])) =
        invokeResult (applyEvents initialSettleState
          [CompletionEvent.callbackCall .null (.num 1)]) :=
  invokeLambda_single_write _ _ _ (by decide)

/-- C2 (amended): the awaitable, callback and context-method conventions are
interchangeable: a success result `r` delivered through any of them settles
as `Success r`, and a failure with a truthy error `e` delivered through any
of them settles exactly as a rejection of the returned awaitable with `e`
does.  (A plain non-awaitable return value is not a completion signal; see
the counterexample.) -/
theorem invokeLambda_conventions_interchangeable (r e rs : JSValue)
    (he : e.truthy = true) :
    (invokeWith (.promiseResolve r) = some (.success r) ∧
     invokeWith (.callbackCall .null r) = some (.success r) ∧
     invokeWith (.succeed r) = some (.success r) ∧
     invokeWith (.done .null r) = some (.success r)) ∧
    (invokeWith (.promiseReject e) = some (classifySignal (.reject e)) ∧
     invokeWith (.callbackCall e rs) = invokeWith (.promiseReject e) ∧
     invokeWith (.fail e) = invokeWith (.promiseReject e) ∧
     invokeWith (.done e rs) = invokeWith (.promiseReject e)) := by
  have hnull : JSValue.truthy .null = false := rfl
  simp [invokeWith, invokeResult, applyEvents, applyEvent,
    CompletionEvent.signal, callbackSignal, applySignal, initialSettleState,
    he, hnull, classifySignal]

/-- Witness for C2 (amended): outcome `7` and error object `obj 0` (truthy),
checked across the conventions. -/
theorem invokeLambda_conventions_interchangeable_witness :
    ((invokeWith (.promiseResolve (.num 7)) = some (.success (.num 7)) ∧
      invokeWith (.callbackCall .null (.num 7)) = some (.success (.num 7)) ∧
      invokeWith (.succeed (.num 7)) = some (.success (.num 7)) ∧
      invokeWith (.done .null (.num 7)) = some (.success (.num 7))) ∧
     (invokeWith (.promiseReject (.obj 0)) =
        some (classifySignal (.reject (.obj 0))) ∧
      invokeWith (.callbackCall (.obj 0) .undef) =
        invokeWith (.promiseReject (.obj 0)) ∧
      invokeWith (.fail (.obj 0)) = invokeWith (.promiseReject (.obj 0)) ∧
      invokeWith (.done (.obj 0) .undef) =
        invokeWith (.promiseReject (.obj 0)))) :=
  invokeLambda_conventions_interchangeable (.num 7) (.obj 0) .undef (by decide)

/-- Counterexample to C2 as stated: a handler that completes by returning the
plain (non-awaitable) value `42` does not settle the invocation — the timer
eventually fires and the result is `Failure{error: undefined, timeout: true}`
— whereas delivering the same outcome through the callback settles as
`Success 42`.  "Returning a value" is therefore not interchangeable with the
other conventions unless the value is an awaitable. -/
theorem invokeLambda_plain_return_ignored :
    invokeResult (applyEvents initialSettleState
        [CompletionEvent.returnNonPromise (.num 42),
          CompletionEvent.timerFire]) =
        some (.failure .undef true) ∧
      invokeWith (.callbackCall .null (.num 42)) =
        some (.success (.num 42)) := by
  decide

/-- C3: a handler that raises no completion signal before the timer fires
yields `Failure` with `timeout = true` and `error = undefined`, whatever
signals arrive afterwards. -/
theorem invokeLambda_timeout_failure (later : List CompletionEvent) :
    invokeResult (applyEvents initialSettleState
        (CompletionEvent.timerFire :: later)) =
      some (.failure .undef true) := by
  rw [invokeResult_eq_first]
  simp [firstSignal, List.filterMap_cons, CompletionEvent.signal,
    classifySignal]

/-- C9: a handler that signals failure with the exact sentinel string
`"lambda-helper-timeout"` — by rejection, callback error, `context.fail`,
`context.done`, or a synchronous throw — before the timer fires is
classified as a timeout: `Failure{error: undefined, timeout: true}`,
indistinguishable from a genuine timer expiry. -/
theorem invokeLambda_sentinel_error_is_timeout (ev : CompletionEvent)
    (rs : JSValue) (later : List CompletionEvent)
    (h : ev = .promiseReject lambdaHelperTimeout ∨
         ev = .callbackCall lambdaHelperTimeout rs ∨
         ev = .fail lambdaHelperTimeout ∨
         ev = .done lambdaHelperTimeout rs ∨
         ev = .syncThrow lambdaHelperTimeout) :
    invokeResult (applyEvents initialSettleState (ev :: later)) =
        some (.failure .undef true) ∧
      invokeResult (applyEvents initialSettleState (ev :: later)) =
        invokeResult (applyEvents initialSettleState
          [CompletionEvent.timerFire]) := by
  have hs : ev.signal = some (.reject lambdaHelperTimeout) := by
    rcases h with rfl | rfl | rfl | rfl | rfl <;>
      simp [CompletionEvent.signal, callbackSignal, lambdaHelperTimeout,
        JSValue.truthy]
  rw [invokeResult_eq_first, invokeResult_eq_first]
  have h1 : firstSignal (ev :: later) = some (.reject lambdaHelperTimeout) := by
    simp [firstSignal, List.filterMap_cons, hs]
  have h2 : firstSignal [CompletionEvent.timerFire] =
      some (.reject lambdaHelperTimeout) := by
    simp [firstSignal, List.filterMap_cons, CompletionEvent.signal]
  rw [h1, h2]
  simp [classifySignal]

/-- Witness for C9: `context.fail("lambda-helper-timeout")` raised before the
timer produces the timeout-classified failure. -/
theorem invokeLambda_sentinel_error_is_timeout_witness :
    invokeResult (applyEvents initialSettleState
        [CompletionEvent.fail lambdaHelperTimeout]) =
        some (.failure .undef true) ∧
      invokeResult (applyEvents initialSettleState
        [CompletionEvent.fail lambdaHelperTimeout]) =
        invokeResult (applyEvents initialSettleState
          [CompletionEvent.timerFire]) :=
  invokeLambda_sentinel_error_is_timeout _ .undef [] (by simp)

/-! ## Queue Client (`SqsHelper`)

`SqsHelper.upsertQueue` resolves the queue by name; if resolution throws
`QueueDoesNotExist`, it creates the queue and resolves again.  Otherwise it
fetches six attribute names from the existing queue and compares them with
`shallowEqual` against `Object.assign({}, DEFAULT_ATTRIBUTES,
command.input.Attributes, command.input.Attributes)`; on inequality it
throws `QueueNameExists`, which is caught only when `force` is set, in
which case it deletes and re-creates the queue.

The external SQS service is modelled as a name-indexed store of queues:
`GetQueueUrl` fails for an absent name, `CreateQueue` stores the requested
attributes over the service defaults, and `GetQueueAttributes` returns only
the attributes among the requested names that the queue holds.
-/

/-- A JavaScript object of string attribute names and values; the first
binding for a key wins on lookup. -/
abbrev AttrMap := List (String × String)

/-- `Object.assign({}, a, b)` as a map: bindings of `b` override `a`. -/
def objAssign (a b : AttrMap) : AttrMap := b ++ a

/-- The `DEFAULT_ATTRIBUTES` constant of the source. -/
def DEFAULT_ATTRIBUTES : AttrMap :=
  [("DelaySeconds", "0"),
   ("MaximumMessageSize", "262144"),
   ("MessageRetentionPeriod", "345600"),
   ("ReceiveMessageWaitTimeSeconds", "0"),
   ("VisibilityTimeout", "30")]

/-- The `AttributeNames` that `upsertQueue` fetches from an existing queue. -/
def UPSERT_ATTRIBUTE_NAMES : List String :=
  ["DelaySeconds", "MaximumMessageSize", "MessageRetentionPeriod",
   "Policy", "ReceiveMessageWaitTimeSeconds", "VisibilityTimeout"]

/-- `shallowEqual` from `fast-equals`: both objects hold the same keys with
equal values. -/
def shallowEqual (a b : AttrMap) : Bool :=
  (a.map Prod.fst ++ b.map Prod.fst).all fun k => a.lookup k == b.lookup k

/-- A queue held by the external SQS service: its stored attributes. -/
structure SqsQueue where
  attributes : AttrMap
deriving DecidableEq, Repr

/-- The external SQS service state: queues indexed by name. -/
structure SqsState where
  queues : List (String × SqsQueue)
deriving DecidableEq, Repr

/-- The URL the service assigns to a queue name. -/
def queueUrlOf (name : String) : String :=
  "http://sqs.local/000000000000/" ++ name

def SqsState.lookupQueue (st : SqsState) (name : String) : Option SqsQueue :=
  st.queues.lookup name

/-- `GetQueueAttributes` restricted to the requested names; attributes the
queue does not hold (e.g. an unset `Policy`) are omitted from the reply. -/
def SqsQueue.getAttributes (q : SqsQueue) : List String → AttrMap
  | [] => []
  | n :: rest =>
      match q.attributes.lookup n with
      | none => q.getAttributes rest
      | some v => (n, v) :: q.getAttributes rest

/-- `CreateQueue`: the stored attributes are the requested ones over the
service defaults. -/
def SqsState.createQueue (st : SqsState) (name : String) (attrs : AttrMap) :
    SqsState :=
  { queues := (name, ⟨objAssign DEFAULT_ATTRIBUTES attrs⟩) ::
      st.queues.filter fun p => p.1 != name }

/-- `DeleteQueue` by queue URL. -/
def SqsState.deleteQueue (st : SqsState) (url : String) : SqsState :=
  { queues := st.queues.filter fun p => queueUrlOf p.1 != url }

/-- The SQS commands `upsertQueue` can send. -/
inductive SqsCommand where
  | getQueueUrl (name : String)
  | getQueueAttributes (queueUrl : String) (names : List String)
  | createQueue (name : String) (attributes : AttrMap)
  | deleteQueue (queueUrl : String)
deriving DecidableEq, Repr

/-- Whether a command mutates the queue service. -/
def SqsCommand.isMutation : SqsCommand → Bool
  | .createQueue _ _ => true
  | .deleteQueue _ => true
  | _ => false

/-- The error `upsertQueue` can propagate to its caller. -/
inductive UpsertError where
  /-- `QueueNameExists`: the queue exists with different attributes. -/
  | queueNameExists
deriving DecidableEq, Repr

/-- The object `upsertQueue` compares the existing queue's attributes with:
`Object.assign({}, DEFAULT_ATTRIBUTES, command.input.Attributes,
command.input.Attributes)` — the requested attributes are assigned twice in
the source, which is idempotent. -/
def upsertExpectedAttributes (requested : AttrMap) : AttrMap :=
  objAssign (objAssign DEFAULT_ATTRIBUTES requested) requested

/-- A completed `upsertQueue` call: its outcome, the service state after the
call, and the commands it sent. -/
structure UpsertResult where
  result : Except UpsertError String
  state : SqsState
  commands : List SqsCommand
deriving Repr

/-- `SqsHelper.upsertQueue` against the service model. -/
def upsertQueue (st : SqsState) (name : String) (requested : AttrMap)
    (force : Bool) : UpsertResult :=
  match st.lookupQueue name with
  | some q =>
      let actual := q.getAttributes UPSERT_ATTRIBUTE_NAMES
      let reads : List SqsCommand :=
        [.getQueueUrl name,
         .getQueueAttributes (queueUrlOf name) UPSERT_ATTRIBUTE_NAMES]
      if shallowEqual actual (upsertExpectedAttributes requested) then
        { result := .ok (queueUrlOf name), state := st, commands := reads }
      else if force then
        let st1 := (st.deleteQueue (queueUrlOf name)).createQueue name requested
        { result := .ok (queueUrlOf name), state := st1,
          commands := reads ++
            [.deleteQueue (queueUrlOf name), .createQueue name requested,
             .getQueueUrl name] }
      else
        { result := .error .queueNameExists, state := st, commands := reads }
  | none =>
      { result := .ok (queueUrlOf name),
        state := st.createQueue name requested,
        commands := [.getQueueUrl name, .createQueue name requested,
          .getQueueUrl name] }

/-! ### Attribute-comparison lemmas -/

theorem lookup_append (a b : AttrMap) (k : String) :
    (a ++ b).lookup k = (a.lookup k).or (b.lookup k) := by
  induction a with
  | nil => simp
  | cons p rest ih =>
      cases hb : k == p.1 with
      | true => simp [List.lookup, hb]
      | false => simp [List.lookup, hb, ih]

theorem getAttributes_lookup (q : SqsQueue) (names : List String)
    (k : String) :
    (q.getAttributes names).lookup k =
      if k ∈ names then q.attributes.lookup k else none := by
  induction names with
  | nil => simp [SqsQueue.getAttributes]
  | cons n rest ih =>
      simp only [SqsQueue.getAttributes]
      cases hv : q.attributes.lookup n with
      | none =>
          by_cases hk : k = n
          · subst hk
            rw [ih]
            by_cases hr : k ∈ rest <;> simp [hr, hv]
          · rw [ih]
            simp [List.mem_cons, hk]
      | some v =>
          cases hb : k == n with
          | true =>
              have hk : k = n := by simpa using hb
              subst hk
              simp [List.lookup, hv]
          | false =>
              have hk : ¬k = n := by simpa using hb
              simp [List.lookup, hb, ih, List.mem_cons, hk]

theorem getAttributes_keys_mem (q : SqsQueue) (names : List String)
    (p : String × String) (hp : p ∈ q.getAttributes names) : p.1 ∈ names := by
  induction names with
  | nil => simp [SqsQueue.getAttributes] at hp
  | cons n rest ih =>
      simp only [SqsQueue.getAttributes] at hp
      cases hv : q.attributes.lookup n with
      | none =>
          simp only [hv] at hp
          exact List.mem_cons_of_mem _ (ih hp)
      | some v =>
          simp only [hv] at hp
          rcases List.mem_cons.mp hp with h | h
          · rw [h]
            exact List.mem_cons_self _ _
          · exact List.mem_cons_of_mem _ (ih h)

theorem default_keys_recognized :
    ∀ k ∈ DEFAULT_ATTRIBUTES.map Prod.fst, k ∈ UPSERT_ATTRIBUTE_NAMES := by
  decide

/-- With every requested attribute among the recognized names, the stored
attributes of a freshly created queue compare `shallowEqual` to the
expected object. -/
theorem shallowEqual_created_queue (req : AttrMap)
    (hreq : ∀ p ∈ req, p.1 ∈ UPSERT_ATTRIBUTE_NAMES) :
    shallowEqual
      ((SqsQueue.mk (objAssign DEFAULT_ATTRIBUTES req)).getAttributes
        UPSERT_ATTRIBUTE_NAMES)
      (upsertExpectedAttributes req) = true := by
  unfold shallowEqual
  rw [List.all_eq_true]
  intro k hk
  have hmem : k ∈ UPSERT_ATTRIBUTE_NAMES := by
    rw [List.mem_append] at hk
    rcases hk with hk | hk
    · rw [List.mem_map] at hk
      obtain ⟨p, hp, rfl⟩ := hk
      exact getAttributes_keys_mem _ _ _ hp
    · rw [List.mem_map] at hk
      obtain ⟨p, hp, rfl⟩ := hk
      unfold upsertExpectedAttributes objAssign at hp
      rw [List.mem_append] at hp
      rcases hp with hp | hp
      · exact hreq p hp
      · rw [List.mem_append] at hp
        rcases hp with hp | hp
        · exact hreq p hp
        · exact default_keys_recognized p.1 (List.mem_map_of_mem Prod.fst hp)
  have hactual :
      ((SqsQueue.mk (objAssign DEFAULT_ATTRIBUTES req)).getAttributes
        UPSERT_ATTRIBUTE_NAMES).lookup k =
        (objAssign DEFAULT_ATTRIBUTES req).lookup k := by
    rw [getAttributes_lookup]
    exact if_pos hmem
  have hexpected : (upsertExpectedAttributes req).lookup k =
      (objAssign DEFAULT_ATTRIBUTES req).lookup k := by
    unfold upsertExpectedAttributes objAssign
    rw [lookup_append, lookup_append]
    cases req.lookup k <;> simp [Option.or]
  rw [hactual, hexpected]
  simp

/-! ### Claim theorems for `upsertQueue` -/

/-- C6: when the queue exists with attributes differing from the merged
defaults-plus-requested object and `force` is not set, `upsertQueue` fails
with the conflict error (`QueueNameExists`) and performs no mutation: the
service state is unchanged and no create, delete, or attribute-changing
command is sent. -/
theorem upsertQueue_conflict_no_mutation (st : SqsState) (name : String)
    (requested : AttrMap) (q : SqsQueue)
    (hq : st.lookupQueue name = some q)
    (hdiff : shallowEqual (q.getAttributes UPSERT_ATTRIBUTE_NAMES)
      (upsertExpectedAttributes requested) = false) :
    (upsertQueue st name requested false).result = .error .queueNameExists ∧
    (upsertQueue st name requested false).state = st ∧
    ∀ c ∈ (upsertQueue st name requested false).commands,
      c.isMutation = false := by
  unfold upsertQueue
  rw [hq]
  simp [hdiff, SqsCommand.isMutation]

/-- Witness for C6: a queue stored without attributes conflicts with an
attribute-free request (the service defaults are absent on the queue side),
and nothing is mutated. -/
theorem upsertQueue_conflict_no_mutation_witness :
    (upsertQueue ⟨[("queue", ⟨[]⟩)]⟩ "queue" [] false).result =
        .error .queueNameExists ∧
      (upsertQueue ⟨[("queue", ⟨[]⟩)]⟩ "queue" [] false).state =
        ⟨[("queue", ⟨[]⟩)]⟩ ∧
      ∀ c ∈ (upsertQueue ⟨[("queue", ⟨[]⟩)]⟩ "queue" [] false).commands,
        c.isMutation = false :=
  upsertQueue_conflict_no_mutation _ _ _ ⟨[]⟩ (by decide) (by decide)

/-- Counterexample to C4: with the single requested attribute
`SqsManagedSseEnabled` — a valid `CreateQueue` attribute outside the
recognized set — the first `upsertQueue` call creates the queue, but the
second identical call raises the conflict error instead of being a no-op:
the comparison merges every requested attribute into the expected object
while fetching only the six recognized names from the queue, so it does not
ignore requested attributes outside the recognized set. -/
theorem upsertQueue_unrecognized_attribute_conflict :
    (upsertQueue ⟨[]⟩ "queue"
        [("SqsManagedSseEnabled", "false")] false).result =
        .ok (queueUrlOf "queue") ∧
      (upsertQueue
          (upsertQueue ⟨[]⟩ "queue"
            [("SqsManagedSseEnabled", "false")] false).state
          "queue" [("SqsManagedSseEnabled", "false")] false).result =
        .error .queueNameExists :=
  ⟨rfl, rfl⟩

/-- C4 (amended): for a create request whose attributes all lie within the
recognized set, calling `upsertQueue` twice with identical attributes
creates the queue on the first call; the second call is a no-op that
returns the same queue URL, leaves the service state unchanged and sends no
mutating command. -/
theorem upsertQueue_idempotent_recognized (st : SqsState) (name : String)
    (req : AttrMap)
    (habsent : st.lookupQueue name = none)
    (hreq : ∀ p ∈ req, p.1 ∈ UPSERT_ATTRIBUTE_NAMES) :
    (upsertQueue st name req false).result = .ok (queueUrlOf name) ∧
    (upsertQueue (upsertQueue st name req false).state name req
        false).result = .ok (queueUrlOf name) ∧
    (upsertQueue (upsertQueue st name req false).state name req
        false).state = (upsertQueue st name req false).state ∧
    ∀ c ∈ (upsertQueue (upsertQueue st name req false).state name req
        false).commands, c.isMutation = false := by
  have h1 : upsertQueue st name req false =
      { result := .ok (queueUrlOf name),
        state := st.createQueue name req,
        commands := [.getQueueUrl name, .createQueue name req,
          .getQueueUrl name] } := by
    unfold upsertQueue
    rw [habsent]
  have hlook : (st.createQueue name req).lookupQueue name =
      some ⟨objAssign DEFAULT_ATTRIBUTES req⟩ := by
    simp [SqsState.lookupQueue, SqsState.createQueue, List.lookup]
  have h2 : upsertQueue (st.createQueue name req) name req false =
      { result := .ok (queueUrlOf name),
        state := st.createQueue name req,
        commands := [.getQueueUrl name,
          .getQueueAttributes (queueUrlOf name) UPSERT_ATTRIBUTE_NAMES] } := by
    unfold upsertQueue
    rw [hlook]
    simp [shallowEqual_created_queue req hreq]
  simp [h1, h2, SqsCommand.isMutation]

/-- Witness for C4 (amended): a request with the recognized attribute
`DelaySeconds = "5"` upserts idempotently from an empty service. -/
theorem upsertQueue_idempotent_recognized_witness :
    (upsertQueue ⟨[]⟩ "queue" [("DelaySeconds", "5")] false).result =
        .ok (queueUrlOf "queue") ∧
      (upsertQueue (upsertQueue ⟨[]⟩ "queue" [("DelaySeconds", "5")]
          false).state "queue" [("DelaySeconds", "5")] false).result =
        .ok (queueUrlOf "queue") ∧
      (upsertQueue (upsertQueue ⟨[]⟩ "queue" [("DelaySeconds", "5")]
          false).state "queue" [("DelaySeconds", "5")] false).state =
        (upsertQueue ⟨[]⟩ "queue" [("DelaySeconds", "5")] false).state ∧
      ∀ c ∈ (upsertQueue (upsertQueue ⟨[]⟩ "queue" [("DelaySeconds", "5")]
          false).state "queue" [("DelaySeconds", "5")] false).commands,
        c.isMutation = false :=
  upsertQueue_idempotent_recognized _ _ _ (by decide) (by decide)

/-! ## Queue Client: `getMessages` and `getJsonMessages`

`getMessages` validates `batchSize`, then runs a do/while loop: each
iteration sends one `ReceiveMessageCommand` asking for
`batchSize === undefined ? 10 : Math.min(10, batchSize - messages.length)`
messages with `VisibilityTimeout: 0` and `WaitTimeSeconds: batchSize ? 20 : 0`,
immediately deletes whatever it received unless `keep` is set, and appends
the received messages; the loop repeats while a batch size was given and
fewer messages than it have accumulated.  The service's replies are an
oracle `recv call max` (the reply to the `call`-th receive asking for at
most `max` messages); a well-behaved service never returns more than asked.
The loop can poll forever, so it is run on fuel: `none` means the fuel ran
out while the real loop would still be polling.
-/

/-- An SQS message: id, receipt handle, and optional body. -/
structure Message where
  messageId : String
  receiptHandle : String
  body : Option String
deriving DecidableEq, Repr

/-- Errors thrown by the queue-client helpers. -/
inductive JsError where
  /-- The `Error` thrown by the batch-size validation. -/
  | validation (msg : String)
  /-- The `SyntaxError` thrown by `JSON.parse`. -/
  | jsonSyntax
deriving DecidableEq, Repr

/-- The `MaxNumberOfMessages` of one receive call. -/
def maxNumberOfMessages (batchSize : Option Nat) (accLen : Nat) : Nat :=
  match batchSize with
  | none => 10
  | some b => min 10 (b - accLen)

/-- The `WaitTimeSeconds` of every receive call: long poll (20s, the
service maximum) when `batchSize` is truthy, zero-wait otherwise. -/
def waitTimeSeconds (batchSize : Option Nat) : Nat :=
  match batchSize with
  | none => 0
  | some b => if b != 0 then 20 else 0

/-- One receive call of the loop, as observed on the wire. -/
structure ReceiveCall where
  /-- Messages accumulated before this call. -/
  accBefore : Nat
  /-- The requested `MaxNumberOfMessages`. -/
  maxNumberOfMessages : Nat
  /-- The requested `WaitTimeSeconds`. -/
  waitTimeSeconds : Nat
  /-- The requested `VisibilityTimeout` (always 0). -/
  visibilityTimeout : Nat
  /-- The messages the service returned. -/
  received : List Message
  /-- Whether a `DeleteMessageBatchCommand` for `received` followed. -/
  deleted : Bool
deriving DecidableEq, Repr

/-- The receive call issued when `accLen` messages have accumulated, and
the delete that follows it when it returned messages and `keep` is unset. -/
def mkReceiveCall (batchSize : Option Nat) (keep : Bool) (accLen : Nat)
    (msgs : List Message) : ReceiveCall :=
  { accBefore := accLen
    maxNumberOfMessages := maxNumberOfMessages batchSize accLen
    waitTimeSeconds := waitTimeSeconds batchSize
    visibilityTimeout := 0
    received := msgs
    deleted := !msgs.isEmpty && !keep }

/-- The do/while accumulation loop of `getMessages`, on fuel. -/
def getMessagesLoop (recv : Nat → Nat → List Message)
    (batchSize : Option Nat) (keep : Bool) (acc : List Message)
    (calls : List ReceiveCall) (call fuel : Nat) :
    Option (List ReceiveCall × List Message) :=
  match fuel with
  | 0 => none
  | fuel + 1 =>
      let msgs := recv call (maxNumberOfMessages batchSize acc.length)
      let acc1 := acc ++ msgs
      let calls1 := calls ++ [mkReceiveCall batchSize keep acc.length msgs]
      match batchSize with
      | some b =>
          if acc1.length < b then
            getMessagesLoop recv batchSize keep acc1 calls1 (call + 1) fuel
          else
            some (calls1, acc1)
      | none => some (calls1, acc1)

/-- `SqsHelper.getMessages` against the receive oracle. -/
def getMessages (recv : Nat → Nat → List Message) (batchSize : Option Nat)
    (keep : Bool) (fuel : Nat) :
    Except JsError (Option (List ReceiveCall × List Message)) :=
  if batchSize.any (· < 1) then
    .error (.validation "Batch size must be equal or greater than 1.")
  else
    .ok (getMessagesLoop recv batchSize keep [] [] 0 fuel)

/-- `JSON.parse(msg.Body!)` for one message: an absent body coerces to the
string `"undefined"`, which is never valid JSON, so it throws; otherwise
the outcome is that of the JSON parser on the body. -/
def parseJsonBody (parse : String → Option JSValue) (m : Message) :
    Except JsError JSValue :=
  match m.body with
  | none => .error .jsonSyntax
  | some s =>
      match parse s with
      | none => .error .jsonSyntax
      | some v => .ok v

/-- The `res.messages.map((msg) => ({...msg, Object: JSON.parse(msg.Body!)}))`
step: pairs every message with its parsed body; the first parse failure
throws out of the whole map. -/
def parseAll (parse : String → Option JSValue) :
    List Message → Except JsError (List (Message × JSValue))
  | [] => .ok []
  | m :: rest =>
      match parseJsonBody parse m with
      | .error e => .error e
      | .ok v =>
          match parseAll parse rest with
          | .error e => .error e
          | .ok l => .ok ((m, v) :: l)

/-- `SqsHelper.getJsonMessages`: awaits `getMessages`, then parses every
retrieved body. -/
def getJsonMessages (parse : String → Option JSValue)
    (recv : Nat → Nat → List Message) (batchSize : Option Nat) (keep : Bool)
    (fuel : Nat) :
    Except JsError (Option (List ReceiveCall × List (Message × JSValue))) :=
  match getMessages recv batchSize keep fuel with
  | .error e => .error e
  | .ok none => .ok none
  | .ok (some (calls, msgs)) =>
      match parseAll parse msgs with
      | .error e => .error e
      | .ok l => .ok (some (calls, l))

/-! ### Batch-accumulation lemmas -/

theorem getMessagesLoop_batch_spec (recv : Nat → Nat → List Message)
    (b : Nat) (keep : Bool)
    (hrecv : ∀ call m, (recv call m).length ≤ m) :
    ∀ fuel acc calls call calls1 msgs,
      acc.length ≤ b →
      (∀ c ∈ calls, c.maxNumberOfMessages = min 10 (b - c.accBefore) ∧
        c.accBefore ≤ b ∧ c.accBefore + c.received.length ≤ b) →
      getMessagesLoop recv (some b) keep acc calls call fuel =
        some (calls1, msgs) →
      (∀ c ∈ calls1, c.maxNumberOfMessages = min 10 (b - c.accBefore) ∧
        c.accBefore ≤ b ∧ c.accBefore + c.received.length ≤ b) ∧
      msgs.length ≤ b := by
  intro fuel
  induction fuel with
  | zero =>
      intro acc calls call calls1 msgs _ _ h
      simp [getMessagesLoop] at h
  | succ fuel ih =>
      intro acc calls call calls1 msgs hacc hcalls h
      simp only [getMessagesLoop] at h
      have hlen : (recv call (maxNumberOfMessages (some b) acc.length)).length ≤
          min 10 (b - acc.length) := hrecv call _
      have hacc1 :
          acc.length + (recv call (maxNumberOfMessages (some b) acc.length)).length ≤ b := by
        have h2 : (recv call (maxNumberOfMessages (some b) acc.length)).length ≤
            b - acc.length := le_trans hlen (min_le_right _ _)
        omega
      have hnew : ∀ c ∈ calls ++
          [mkReceiveCall (some b) keep acc.length
            (recv call (maxNumberOfMessages (some b) acc.length))],
          c.maxNumberOfMessages = min 10 (b - c.accBefore) ∧
          c.accBefore ≤ b ∧ c.accBefore + c.received.length ≤ b := by
        intro c hc
        rw [List.mem_append] at hc
        rcases hc with hc | hc
        · exact hcalls c hc
        · rw [List.mem_singleton] at hc
          subst hc
          refine ⟨rfl, hacc, ?_⟩
          simpa [mkReceiveCall] using hacc1
      split at h
      · exact ih _ _ _ _ _ (by simpa using hacc1) hnew h
      · rw [Option.some_inj] at h
        obtain ⟨rfl, rfl⟩ := Prod.mk.injEq .. ▸ h
        exact ⟨by simpa using hnew, by simpa using hacc1⟩

/-- C5: for a `getMessages` call with a specified `batchSize` `b ≥ 1`
against a service that never returns more messages than requested, every
receive call asks for exactly `min(10, b - accumulated)` messages (hence at
most that many), the accumulated count stays between 0 and `b` at every
call boundary, and the returned list never exceeds `b` messages. -/
theorem getMessages_batch_bounds (recv : Nat → Nat → List Message)
    (b : Nat) (keep : Bool) (fuel : Nat) (calls : List ReceiveCall)
    (msgs : List Message)
    (hrecv : ∀ call m, (recv call m).length ≤ m)
    (hb : 1 ≤ b)
    (h : getMessages recv (some b) keep fuel = .ok (some (calls, msgs))) :
    (∀ c ∈ calls, c.maxNumberOfMessages = min 10 (b - c.accBefore) ∧
      c.maxNumberOfMessages ≤ 10 ∧
      c.accBefore ≤ b ∧ c.accBefore + c.received.length ≤ b) ∧
    msgs.length ≤ b := by
  unfold getMessages at h
  split at h
  case isTrue => simp at h
  case isFalse =>
    rw [Except.ok.injEq] at h
    have := getMessagesLoop_batch_spec recv b keep hrecv fuel [] [] 0 calls
      msgs (by simp) (by simp) h
    refine ⟨fun c hc => ?_, this.2⟩
    obtain ⟨h1, h2, h3⟩ := this.1 c hc
    exact ⟨h1, by rw [h1]; exact min_le_left _ _, h2, h3⟩

/-- Witness for C5: a service that hands out at most one message per call,
`batchSize = 1`, one unit of fuel. -/
theorem getMessages_batch_bounds_witness :
    (∀ c ∈ [mkReceiveCall (some 1) false 0
        [Message.mk "id" "rh" (some "{}")]],
      c.maxNumberOfMessages = min 10 (1 - c.accBefore) ∧
      c.maxNumberOfMessages ≤ 10 ∧
      c.accBefore ≤ 1 ∧ c.accBefore + c.received.length ≤ 1) ∧
    ([Message.mk "id" "rh" (some "{}")] : List Message).length ≤ 1 :=
  getMessages_batch_bounds
    (fun _ m => List.replicate (min 1 m) (Message.mk "id" "rh" (some "{}")))
    1 false 1 _ _
    (fun _ m => by
      rw [List.length_replicate]
      exact Nat.min_le_right 1 m)
    (by omega) rfl

/-! ### JSON-parsing lemmas -/

theorem parseAll_error_of_mem (parse : String → Option JSValue)
    (msgs : List Message)
    (h : ∃ m ∈ msgs, ∃ e, parseJsonBody parse m = .error e) :
    ∃ e, parseAll parse msgs = .error e := by
  induction msgs with
  | nil => simp at h
  | cons m rest ih =>
      obtain ⟨m0, hmem, e0, he0⟩ := h
      rcases List.mem_cons.mp hmem with rfl | hmem
      · exact ⟨e0, by simp [parseAll, he0]⟩
      · cases hm : parseJsonBody parse m with
        | error e => exact ⟨e, by simp [parseAll, hm]⟩
        | ok v =>
            obtain ⟨e, he⟩ := ih ⟨m0, hmem, e0, he0⟩
            exact ⟨e, by simp [parseAll, hm, he]⟩

theorem parseAll_ok_spec (parse : String → Option JSValue)
    (msgs : List Message) (l : List (Message × JSValue))
    (h : parseAll parse msgs = .ok l) :
    l.length = msgs.length ∧
      ∀ m ∈ msgs, ∃ v, (m, v) ∈ l ∧ parseJsonBody parse m = .ok v := by
  induction msgs generalizing l with
  | nil =>
      simp [parseAll] at h
      subst h
      simp
  | cons m rest ih =>
      simp only [parseAll] at h
      cases hm : parseJsonBody parse m with
      | error e => simp [hm] at h
      | ok v =>
          rw [hm] at h
          cases hr : parseAll parse rest with
          | error e => simp [hr] at h
          | ok lr =>
              rw [hr] at h
              rw [Except.ok.injEq] at h
              subst h
              obtain ⟨hlen, hall⟩ := ih lr hr
              refine ⟨by simp [hlen], ?_⟩
              intro m0 hmem
              rcases List.mem_cons.mp hmem with rfl | hmem
              · exact ⟨v, List.mem_cons_self _ _, hm⟩
              · obtain ⟨v0, hv0, hp0⟩ := hall m0 hmem
                exact ⟨v0, List.mem_cons_of_mem _ hv0, hp0⟩

theorem getMessagesLoop_deleted_some (recv : Nat → Nat → List Message)
    (b : Nat) (keep : Bool) :
    ∀ fuel acc calls call calls1 msgs,
      (∀ c ∈ calls, c.deleted = (!c.received.isEmpty && !keep)) →
      getMessagesLoop recv (some b) keep acc calls call fuel =
        some (calls1, msgs) →
      ∀ c ∈ calls1, c.deleted = (!c.received.isEmpty && !keep) := by
  intro fuel
  induction fuel with
  | zero =>
      intro acc calls call calls1 msgs _ h
      simp [getMessagesLoop] at h
  | succ fuel ih =>
      intro acc calls call calls1 msgs hcalls h
      simp only [getMessagesLoop] at h
      have hnew : ∀ c ∈ calls ++
          [mkReceiveCall (some b) keep acc.length
            (recv call (maxNumberOfMessages (some b) acc.length))],
          c.deleted = (!c.received.isEmpty && !keep) := by
        intro c hc
        rw [List.mem_append] at hc
        rcases hc with hc | hc
        · exact hcalls c hc
        · rw [List.mem_singleton] at hc
          subst hc
          rfl
      split at h
      · exact ih _ _ _ _ _ hnew h
      · rw [Option.some_inj] at h
        obtain ⟨rfl, rfl⟩ := Prod.mk.injEq .. ▸ h
        exact hnew

theorem getMessagesLoop_deleted_none (recv : Nat → Nat → List Message)
    (keep : Bool) :
    ∀ fuel acc calls call calls1 msgs,
      (∀ c ∈ calls, c.deleted = (!c.received.isEmpty && !keep)) →
      getMessagesLoop recv none keep acc calls call fuel =
        some (calls1, msgs) →
      ∀ c ∈ calls1, c.deleted = (!c.received.isEmpty && !keep) := by
  intro fuel
  induction fuel with
  | zero =>
      intro acc calls call calls1 msgs _ h
      simp [getMessagesLoop] at h
  | succ fuel ih =>
      intro acc calls call calls1 msgs hcalls h
      simp only [getMessagesLoop] at h
      rw [Option.some_inj] at h
      obtain ⟨rfl, rfl⟩ := Prod.mk.injEq .. ▸ h
      intro c hc
      rw [List.mem_append] at hc
      rcases hc with hc | hc
      · exact hcalls c hc
      · rw [List.mem_singleton] at hc
        subst hc
        rfl

/-- C10: `getJsonMessages` parses every retrieved body only after
`getMessages` has completed.  If any retrieved message has an absent or
unparsable body, the whole call throws and returns no messages — and when
`keep` is unset, every receive call that returned messages was already
followed by a delete inside `getMessages`, so those messages are gone from
the queue.  When the call does return, the batch is fully parsed: one
parsed pair per retrieved message, never a partial batch. -/
theorem getJsonMessages_all_or_nothing (parse : String → Option JSValue)
    (recv : Nat → Nat → List Message) (batchSize : Option Nat) (keep : Bool)
    (fuel : Nat) (calls : List ReceiveCall) (msgs : List Message)
    (h : getMessages recv batchSize keep fuel = .ok (some (calls, msgs))) :
    ((∃ m ∈ msgs, ∃ e, parseJsonBody parse m = .error e) →
      ∃ e, getJsonMessages parse recv batchSize keep fuel = .error e) ∧
    (keep = false → ∀ c ∈ calls, c.received ≠ [] → c.deleted = true) ∧
    (∀ calls1 l,
      getJsonMessages parse recv batchSize keep fuel = .ok (some (calls1, l)) →
      calls1 = calls ∧ l.length = msgs.length ∧
        ∀ m ∈ msgs, ∃ v, (m, v) ∈ l ∧ parseJsonBody parse m = .ok v) := by
  refine ⟨?_, ?_, ?_⟩
  · intro hbad
    obtain ⟨e, he⟩ := parseAll_error_of_mem parse msgs hbad
    exact ⟨e, by simp [getJsonMessages, h, he]⟩
  · intro hkeep c hc hne
    have hloop : getMessagesLoop recv batchSize keep [] [] 0 fuel =
        some (calls, msgs) := by
      unfold getMessages at h
      split at h
      case isTrue => simp at h
      case isFalse => rw [Except.ok.injEq] at h; exact h
    have hdel : ∀ c ∈ calls, c.deleted = (!c.received.isEmpty && !keep) := by
      cases batchSize with
      | none =>
          exact getMessagesLoop_deleted_none recv keep fuel [] [] 0 calls
            msgs (by simp) hloop
      | some b =>
          exact getMessagesLoop_deleted_some recv b keep fuel [] [] 0 calls
            msgs (by simp) hloop
    rw [hdel c hc, hkeep]
    simp [List.isEmpty_iff, hne]
  · intro calls1 l hjson
    simp only [getJsonMessages, h] at hjson
    cases hp : parseAll parse msgs with
    | error e => rw [hp] at hjson; simp at hjson
    | ok l0 =>
        rw [hp] at hjson
        simp only [Except.ok.injEq, Option.some_inj, Prod.mk.injEq] at hjson
        obtain ⟨h1, h2⟩ := hjson
        subst h1
        subst h2
        exact ⟨rfl, parseAll_ok_spec parse msgs _ hp⟩

/-- Witness for C10: a single retrieved message whose body is absent; the
call throws, while the message was already deleted inside `getMessages`. -/
theorem getJsonMessages_all_or_nothing_witness :
    ((∃ m ∈ [Message.mk "id" "rh" none], ∃ e,
        parseJsonBody (fun _ => none) m = .error e) →
      ∃ e, getJsonMessages (fun _ => none)
          (fun _ _ => [Message.mk "id" "rh" none]) none false 1 = .error e) ∧
    (false = false →
      ∀ c ∈ [mkReceiveCall none false 0 [Message.mk "id" "rh" none]],
        c.received ≠ [] → c.deleted = true) ∧
    (∀ calls1 l,
      getJsonMessages (fun _ => none)
          (fun _ _ => [Message.mk "id" "rh" none]) none false 1 =
        .ok (some (calls1, l)) →
      calls1 = [mkReceiveCall none false 0 [Message.mk "id" "rh" none]] ∧
        l.length = ([Message.mk "id" "rh" none] : List Message).length ∧
        ∀ m ∈ [Message.mk "id" "rh" none], ∃ v, (m, v) ∈ l ∧
          parseJsonBody (fun _ => none) m = .ok v) :=
  getJsonMessages_all_or_nothing (fun _ => none)
    (fun _ _ => [Message.mk "id" "rh" none]) none false 1 _ _ rfl

/-! ## Poll Orchestrator (`SqsLambdaHelper.runSqsLambda`)

After resolving the queue URL, `runSqsLambda` loops while the abort signal
is not triggered: it logs `"Polling for SQS messages..."`, awaits
`getMessages` (breaking out of the loop when the failure is an `Error`
named `"AbortError"`, rethrowing any other failure), logs the invocation,
awaits `invokeLambda` (which never throws — handler errors are encoded in
its result), and reports the outcome through `logger.info`/`logger.error`.
None of the logger calls is guarded by a try/catch.

The environment of each iteration — the abort flag at the loop head, the
receive outcome, the invocation output, and the outcome of each of the
three logger calls (a logger method either returns or throws a value) — is
an oracle indexed by the iteration number.  The loop itself is run on fuel.
-/

/-- A JavaScript `Error` as observed by the orchestrator: its `name` and
message. -/
structure SqsError where
  name : String
  message : String
deriving DecidableEq, Repr

/-- What the orchestrator can propagate out of the loop: a receive failure
rethrown by the `catch`, or a value thrown by an unguarded logger call. -/
inductive LoopError where
  | receive (e : SqsError)
  | logger (e : JSValue)
deriving DecidableEq, Repr

/-- The environment of one loop iteration. -/
structure IterEnv where
  /-- `abortSignal.aborted` at the `while` check. -/
  aborted : Bool
  /-- Outcome of `logger.info("Polling for SQS messages...")`. -/
  logPolling : Except JSValue Unit
  /-- Outcome of the awaited `SqsHelper.getMessages` call. -/
  receive : Except SqsError (List Message)
  /-- Outcome of `logger.info("Invoking lambda handler...")`. -/
  logInvoking : Except JSValue Unit
  /-- The result of `LambdaHelper.invokeLambda` (never a thrown error). -/
  invokeOutput : InvokeLambdaOutput
  /-- Outcome of the `logger.info`/`logger.error` call reporting the
  invocation outcome. -/
  logReport : Except JSValue Unit

/-- The poll/invoke loop of `runSqsLambda`: returns the reported invocation
outcomes on normal exit, the propagated error otherwise; `none` when the
fuel runs out with the loop still going. -/
def runSqsLambdaLoop (env : Nat → IterEnv) (k : Nat)
    (reports : List InvokeLambdaOutput) (fuel : Nat) :
    Option (Except LoopError (List InvokeLambdaOutput)) :=
  match fuel with
  | 0 => none
  | fuel + 1 =>
      if (env k).aborted then some (.ok reports)
      else
        match (env k).logPolling with
        | .error v => some (.error (.logger v))
        | .ok _ =>
            match (env k).receive with
            | .error err =>
                if err.name == "AbortError" then some (.ok reports)
                else some (.error (.receive err))
            | .ok _msgs =>
                match (env k).logInvoking with
                | .error v => some (.error (.logger v))
                | .ok _ =>
                    match (env k).logReport with
                    | .error v => some (.error (.logger v))
                    | .ok _ =>
                        runSqsLambdaLoop env (k + 1)
                          (reports ++ [(env k).invokeOutput]) fuel

/-! ### Claim theorems for the Poll Orchestrator -/

/-- C7: when the receive of iteration `k` fails, the loop exits without an
error if the failure is a cancellation (an `Error` named `"AbortError"`),
and any other receive failure propagates out of `runSqsLambda` immediately
as that fatal error — no further iteration runs in either case. -/
theorem runSqsLambda_receive_failure (env : Nat → IterEnv) (k : Nat)
    (reports : List InvokeLambdaOutput) (fuel : Nat) (err : SqsError)
    (hab : (env k).aborted = false)
    (hlog : (env k).logPolling = .ok ())
    (hrecv : (env k).receive = .error err) :
    (err.name = "AbortError" →
      runSqsLambdaLoop env k reports (fuel + 1) = some (.ok reports)) ∧
    (err.name ≠ "AbortError" →
      runSqsLambdaLoop env k reports (fuel + 1) =
        some (.error (.receive err))) := by
  constructor
  · intro hname
    simp [runSqsLambdaLoop, hab, hlog, hrecv, hname]
  · intro hname
    simp [runSqsLambdaLoop, hab, hlog, hrecv, hname]

/-- Witness for C7: a cancellation failure exits cleanly and a generic
failure is rethrown, at iteration 0 with one unit of fuel. -/
theorem runSqsLambda_receive_failure_witness :
    ((SqsError.mk "AbortError" "aborted").name = "AbortError" →
      runSqsLambdaLoop
          (fun _ => IterEnv.mk false (.ok ())
            (.error (SqsError.mk "AbortError" "aborted")) (.ok ())
            (.success .undef) (.ok ())) 0 [] 1 = some (.ok [])) ∧
    ((SqsError.mk "AbortError" "aborted").name ≠ "AbortError" →
      runSqsLambdaLoop
          (fun _ => IterEnv.mk false (.ok ())
            (.error (SqsError.mk "AbortError" "aborted")) (.ok ())
            (.success .undef) (.ok ())) 0 [] 1 =
        some (.error (.receive (SqsError.mk "AbortError" "aborted")))) :=
  runSqsLambda_receive_failure _ 0 [] 0 _ rfl rfl rfl

/-- Counterexample to C8: a logging collaborator whose report method throws
`"boom"` makes the orchestrator propagate that exception and terminate the
poll loop — the iteration's handler invocation succeeded, yet the loop does
not proceed.  Reporting is an unguarded call into the collaborator, so "for
every logging collaborator" fails. -/
theorem runSqsLambda_throwing_logger_stops_loop :
    runSqsLambdaLoop
        (fun _ => IterEnv.mk false (.ok ()) (.ok []) (.ok ())
          (.success .undef) (.error (.str "boom"))) 0 [] 5 =
      some (.error (.logger (.str "boom"))) :=
  rfl

/-- C8 (amended): provided the collaborator's logging calls of iteration `k`
return without throwing, reporting the invocation outcome — success or
failure alike — neither throws out of the orchestrator nor terminates the
loop: the loop proceeds to iteration `k + 1` with the outcome appended to
the reported history. -/
theorem runSqsLambda_report_continues_loop (env : Nat → IterEnv) (k : Nat)
    (reports : List InvokeLambdaOutput) (fuel : Nat) (msgs : List Message)
    (hab : (env k).aborted = false)
    (hpoll : (env k).logPolling = .ok ())
    (hrecv : (env k).receive = .ok msgs)
    (hinv : (env k).logInvoking = .ok ())
    (hrep : (env k).logReport = .ok ()) :
    runSqsLambdaLoop env k reports (fuel + 1) =
      runSqsLambdaLoop env (k + 1)
        (reports ++ [(env k).invokeOutput]) fuel := by
  simp [runSqsLambdaLoop, hab, hpoll, hrecv, hinv, hrep]

/-- Witness for C8 (amended): with a non-throwing logger, an iteration whose
handler invocation failed still hands control to the next iteration with
the failure recorded. -/
theorem runSqsLambda_report_continues_loop_witness :
    runSqsLambdaLoop
        (fun _ => IterEnv.mk false (.ok ()) (.ok []) (.ok ())
          (.failure (.str "handler error") false) (.ok ())) 0 [] 1 =
      runSqsLambdaLoop
        (fun _ => IterEnv.mk false (.ok ()) (.ok []) (.ok ())
          (.failure (.str "handler error") false) (.ok ())) 1
        ([] ++ [InvokeLambdaOutput.failure (.str "handler error") false]) 0 :=
  runSqsLambda_report_continues_loop _ 0 [] 0 [] rfl rfl rfl rfl rfl
